import Mathlib

/-!
The ZeroMQ log driver of zmq_docker_driver (`zmq_driver.go`).

A shallow embedding of `zmq_driver.go` and the properties of its
natural-language specification.

Conventions of the embedding.

* Go strings are Lean `String`s.  The only string operations of the source are
  concatenation, comparison with a literal and `strings.SplitN(pair, "=", 2)`.
* A Go `error` is `Option Error`; `none` is `nil`.
* A Go `map[string]string` is an association list `GoMap`; reading an absent
  key gives the zero value `""`, `range` visits the keys in the order of the
  list (Go leaves the order unspecified, so the theorems quantify over every
  list).
* The ZeroMQ socket is an external transport.  It is modelled as a recording
  transport: `Socket.calls` is the list of calls made on the socket, oldest
  first, and `Socket.reply` is the (arbitrary) answer of the transport to a
  call, given the calls made before it.
* `felock.Lock()` and the deferred `felock.Unlock()` bracket the whole body of
  `Log` and of `Close`; in the sequential semantics used here the mutex is
  free at entry and free again at exit, so it carries no state.
-/

namespace ZmqDriver

/-- Go `error` values: an error is its message. -/
abbrev Error := String

/-- Send flags of the `zmq` package used by the driver. -/
inductive Flag where
  | DONTWAIT
  | SNDMORE
  deriving DecidableEq, Repr

/-- One call made on a `*zmq.Socket`. -/
inductive SockCall where
  | connect (endpoint : String)
  | send (data : String) (flags : Flag)
  | close
  deriving DecidableEq, Repr

/-- The external ZeroMQ socket, as a recording transport. -/
structure Socket where
  /-- The calls made on the socket so far, oldest first. -/
  calls : List SockCall
  /-- The answer of the transport to a call, given the earlier calls. -/
  reply : List SockCall → SockCall → Option Error

/-- Perform one call on the socket: record it and return the transport's answer. -/
def Socket.call (w : Socket) (c : SockCall) : Socket × Option Error :=
  ({ w with calls := w.calls ++ [c] }, w.reply w.calls c)

/-- The method `soc.Connect(endpoint)`. -/
def Socket.Connect (w : Socket) (endpoint : String) : Socket × Option Error :=
  w.call (SockCall.connect endpoint)

/-- The method `soc.Send(data, flags)`. -/
def Socket.Send (w : Socket) (data : String) (flags : Flag) : Socket × Option Error :=
  w.call (SockCall.send data flags)

/-- The method `soc.Close()`. -/
def Socket.Close (w : Socket) : Socket × Option Error :=
  w.call SockCall.close

/-- A Go `map[string]string`. -/
abbrev GoMap := List (String × String)

/-- The Go expression `m[k]`: the value stored under `k`, or `""` when absent. -/
def GoMap.get : GoMap → String → String
  | [], _ => ""
  | (k, v) :: rest, key => if k = key then v else GoMap.get rest key

/-- The Go statement `m[k] = v`. -/
def GoMap.set : GoMap → String → String → GoMap
  | [], key, value => [(key, value)]
  | (k, v) :: rest, key, value =>
    if k = key then (k, value) :: rest else (k, v) :: GoMap.set rest key value

/-- The keys of a map, in iteration order. -/
def GoMap.keys (m : GoMap) : List String := m.map Prod.fst

/-- Cut a character list at its first occurrence of `sep`:
`none` when `sep` does not occur. -/
def cutAt (sep : Char) : List Char → Option (List Char × List Char)
  | [] => none
  | c :: cs =>
    if c = sep then some ([], cs)
    else match cutAt sep cs with
      | none => none
      | some (before, after) => some (c :: before, after)

/-- Go `strings.SplitN(s, sep, n)` for a one-character separator and `n ≥ 0`:
at most `n` pieces, the last one being the unsplit remainder. -/
def SplitN (s : List Char) (sep : Char) : Nat → List String
  | 0 => []
  | 1 => [String.mk s]
  | n + 2 =>
    match cutAt sep s with
    | none => [String.mk s]
    | some (before, after) => String.mk before :: SplitN after sep (n + 1)

/-- The `logger.Info` fields the driver reads. -/
structure Info where
  /-- The log options, `info.Config`. -/
  Config : GoMap
  /-- The container environment, `info.ContainerEnv`. -/
  ContainerEnv : List String
  /-- The value returned by `info.ID()`. -/
  ID : String

/-- The `logger.Message` fields the driver reads. -/
structure Message where
  /-- The bytes of the log line, `msg.Line`. -/
  Line : String
  /-- The stream the line comes from, `msg.Source`. -/
  Source : String

/-- The struct `ZmqLogger` (the mutex `felock` carries no sequential state). -/
structure ZmqLogger where
  /-- The socket pointer `writer`; `none` is the nil pointer. -/
  writer : Option Socket
  containerId : String
  tenantId : String
  serviceId : String

/-- The constant `name`. -/
def name : String := "zmq_logger"

/-- The constant `zmqAddress`. -/
def zmqAddress : String := "zmqAddress"

/-- The loop `for _, pair := range info.ContainerEnv` of `New`, one iteration. -/
def envStep (env : GoMap) (pair : String) : GoMap :=
  match SplitN pair.data '=' 2 with
  | [key, value] => env.set key value
  | _ => env

/-- The loop `for _, pair := range info.ContainerEnv` of `New`, starting from
the map `env`. -/
def envLoop (env : GoMap) (pairs : List String) : GoMap :=
  pairs.foldl envStep env

/-- The function `New`.  `newSocket` is the outcome of the external call
`zmq.NewSocket(zmq.PUB)`. -/
def New (newSocket : Except Error Socket) (info : Info) : Except Error ZmqLogger :=
  let zmqaddress := info.Config.get zmqAddress
  match newSocket with
  | Except.error err => Except.error err
  | Except.ok puber =>
    let env := envLoop [] info.ContainerEnv
    let tenantId := env.get "TENANT_ID"
    let serviceId := env.get "SERVICE_ID"
    let tenantId := if tenantId = "" then "default" else tenantId
    let serviceId := if serviceId = "" then "default" else serviceId
    let puber := (puber.Connect zmqaddress).1
    Except.ok
      { writer := some puber
        containerId := info.ID
        tenantId := tenantId
        serviceId := serviceId }

/-- The method `Log`.  The result is `none` when the call panics (a nil
`writer`), otherwise the logger after the call and the returned `error`. -/
def Log (s : ZmqLogger) (msg : Message) : Option (ZmqLogger × Option Error) :=
  match s.writer with
  | none => none
  | some w =>
    let w := (w.Send s.tenantId Flag.SNDMORE).1
    let w := (w.Send s.serviceId Flag.SNDMORE).1
    let w :=
      if msg.Source = "stderr" then
        (w.Send (s.containerId ++ ": " ++ msg.Line) Flag.DONTWAIT).1
      else
        (w.Send (s.containerId ++ ": " ++ msg.Line) Flag.DONTWAIT).1
    some ({ s with writer := some w }, none)

/-- The method `Close`: the logger after the call and the returned `error`. -/
def Close (s : ZmqLogger) : ZmqLogger × Option Error :=
  match s.writer with
  | some w =>
    let r := w.Close
    ({ s with writer := some r.1 }, r.2)
  | none => (s, none)

/-- The method `Name`. -/
def Name (_s : ZmqLogger) : String := name

/-- The loop `for key := range cfg` of `ValidateLogOpt` over the keys still to
visit: the error it returns, or `none` when it runs to its end. -/
def validateKeys : List String → Option Error
  | [] => none
  | key :: rest =>
    if key = zmqAddress then validateKeys rest
    else some ("unknown log opt \x27" ++ key ++ "\x27 for " ++ name ++ " log driver")

/-- The function `ValidateLogOpt`. -/
def ValidateLogOpt (cfg : GoMap) : Option Error :=
  match validateKeys cfg.keys with
  | some err => some err
  | none =>
    if cfg.get zmqAddress = "" then
      some ("must specify a value for log opt \x27" ++ zmqAddress ++ "\x27")
    else none

/-- Go `strings.HasPrefix` on character lists. -/
def startsWith : List Char → List Char → Bool
  | _, [] => true
  | [], _ :: _ => false
  | c :: cs, p :: ps => c = p && startsWith cs ps

/-- Go `strings.Contains` on character lists. -/
def containsChars : List Char → List Char → Bool
  | [], sub => startsWith [] sub
  | c :: cs, sub => startsWith (c :: cs) sub || containsChars cs sub

/-- Go `strings.Contains(s, sub)`. -/
def Contains (s sub : String) : Bool := containsChars s.data sub.data

/-- The text of an entry before its first `=` (spec wording). -/
def textBeforeEq (e : String) : String :=
  String.mk (e.data.takeWhile (fun c => c != '='))

/-- The text of an entry after its first `=` (spec wording). -/
def textAfterEq (e : String) : String :=
  String.mk ((e.data.dropWhile (fun c => c != '=')).drop 1)

/-- An entry that has a `=` and whose text before its first `=` is exactly `key`. -/
def isEntryFor (key : String) (e : String) : Bool :=
  e.data.contains '=' && textBeforeEq e == key

/-- The identity value the specification derives for `key` from an environment:
the text after the first `=` of the last entry for `key`, replaced by
`"default"` when there is no such entry or that text is empty. -/
def specIdentity (key : String) (environment : List String) : String :=
  match (environment.filter (isEntryFor key)).getLast? with
  | none => "default"
  | some e => if textAfterEq e = "" then "default" else textAfterEq e

/-- The loggers the driver can hold: built by `New`, then used through `Log`
and `Close`. -/
inductive Reachable : ZmqLogger → Prop where
  | new (newSocket : Except Error Socket) (info : Info) (lg : ZmqLogger)
      (h : New newSocket info = Except.ok lg) : Reachable lg
  | log (s s₁ : ZmqLogger) (msg : Message) (err : Option Error)
      (hs : Reachable s) (h : Log s msg = some (s₁, err)) : Reachable s₁
  | close (s : ZmqLogger) (hs : Reachable s) : Reachable (Close s).1

/-! ## Auxiliary lemmas -/

theorem GoMap.get_set (m : GoMap) (key value k : String) :
    (m.set key value).get k = if key = k then value else m.get k := by
  induction m with
  | nil => simp [GoMap.set, GoMap.get]
  | cons p rest ih =>
    obtain ⟨a, b⟩ := p
    by_cases hak : a = key
    · subst hak
      by_cases h2 : a = k <;> simp [GoMap.set, GoMap.get, h2]
    · by_cases h2 : a = k
      · subst h2
        have : ¬ key = a := fun h => hak h.symm
        simp [GoMap.set, GoMap.get, hak, this]
      · simp [GoMap.set, GoMap.get, hak, h2, ih]

theorem cutAt_eq (sep : Char) (s : List Char) :
    cutAt sep s =
      if sep ∈ s then
        some (s.takeWhile (fun c => c != sep), (s.dropWhile (fun c => c != sep)).drop 1)
      else none := by
  induction s with
  | nil => simp [cutAt]
  | cons c cs ih =>
    by_cases h : c = sep
    · subst h
      simp [cutAt, List.takeWhile, List.dropWhile]
    · have h2 : ¬ sep = c := fun e => h e.symm
      have hb : (c != sep) = true := by simpa using h
      by_cases hm : sep ∈ cs
      · simp [cutAt, h, h2, ih, hm, List.takeWhile, List.dropWhile, hb]
      · simp [cutAt, h, h2, ih, hm]

theorem SplitN_two (s : List Char) (sep : Char) :
    SplitN s sep 2 =
      match cutAt sep s with
      | none => [String.mk s]
      | some (before, after) => [String.mk before, String.mk after] := by
  show (match cutAt sep s with
      | none => [String.mk s]
      | some (before, after) => String.mk before :: SplitN after sep 1) = _
  cases cutAt sep s with
  | none => rfl
  | some p => rfl

theorem envStep_eq (env : GoMap) (pair : String) :
    envStep env pair =
      if '=' ∈ pair.data then env.set (textBeforeEq pair) (textAfterEq pair) else env := by
  unfold envStep
  rw [SplitN_two, cutAt_eq]
  by_cases h : '=' ∈ pair.data
  · simp [h, textBeforeEq, textAfterEq]
  · simp [h]

theorem envLoop_append (env : GoMap) (ps : List String) (p : String) :
    envLoop env (ps ++ [p]) = envStep (envLoop env ps) p := by
  simp [envLoop, List.foldl_append]

theorem get_envLoop (env : GoMap) (ps : List String) (key : String) :
    (envLoop env ps).get key =
      match (ps.filter (isEntryFor key)).getLast? with
      | none => env.get key
      | some e => textAfterEq e := by
  induction ps using List.reverseRecOn with
  | nil => simp [envLoop]
  | append_singleton ps p ih =>
    rw [envLoop_append, envStep_eq, List.filter_append]
    by_cases hp : isEntryFor key p = true
    · have h1 : '=' ∈ p.data ∧ textBeforeEq p = key := by
        simpa [isEntryFor] using hp
      simp [hp, h1.1, h1.2, GoMap.get_set]
    · have hf : [p].filter (isEntryFor key) = [] := by simp [hp]
      rw [hf, List.append_nil]
      by_cases h1 : '=' ∈ p.data
      · have h2 : ¬ textBeforeEq p = key := by
          intro h2
          apply hp
          simp [isEntryFor, h1, h2]
        simp [h1, GoMap.get_set, h2, ih]
      · simp [h1, ih]

theorem specIdentity_eq (key : String) (environment : List String) :
    specIdentity key environment =
      if (envLoop [] environment).get key = "" then "default"
      else (envLoop [] environment).get key := by
  rw [get_envLoop]
  unfold specIdentity
  cases (environment.filter (isEntryFor key)).getLast? with
  | none => simp [GoMap.get]
  | some e => rfl

theorem New_ok (puber : Socket) (info : Info) :
    New (Except.ok puber) info =
      Except.ok
        { writer := some (puber.Connect (info.Config.get zmqAddress)).1
          containerId := info.ID
          tenantId := specIdentity "TENANT_ID" info.ContainerEnv
          serviceId := specIdentity "SERVICE_ID" info.ContainerEnv } := by
  simp only [New, specIdentity_eq]

theorem takeWhile_append_drop (sep : Char) (s : List Char) (h : sep ∈ s) :
    s = s.takeWhile (fun c => c != sep) ++ sep :: (s.dropWhile (fun c => c != sep)).drop 1 := by
  induction s with
  | nil => simp at h
  | cons c cs ih =>
    by_cases hc : c = sep
    · subst hc
      simp [List.takeWhile, List.dropWhile]
    · have hb : (c != sep) = true := by simpa using hc
      have hm : sep ∈ cs := by
        rcases List.mem_cons.mp h with h1 | h1
        · exact absurd h1.symm hc
        · exact h1
      have := ih hm
      simp only [List.takeWhile, List.dropWhile, hb, List.cons_append]
      exact congrArg (List.cons c) this

theorem entry_decomp (e : String) (h : '=' ∈ e.data) :
    e = textBeforeEq e ++ "=" ++ textAfterEq e := by
  apply String.ext
  simp only [String.data_append, textBeforeEq, textAfterEq]
  simpa using takeWhile_append_drop '=' e.data h

theorem entry_of_isEntryFor (key e : String) (h : isEntryFor key e = true) :
    e = key ++ "=" ++ textAfterEq e := by
  have h1 : '=' ∈ e.data ∧ textBeforeEq e = key := by
    simpa [isEntryFor] using h
  have := entry_decomp e h1.1
  rw [h1.2] at this
  exact this

theorem takeWhile_key (sep : Char) (k v : List Char) (h : sep ∉ k) :
    (k ++ sep :: v).takeWhile (fun c => c != sep) = k ∧
      (k ++ sep :: v).dropWhile (fun c => c != sep) = sep :: v := by
  induction k with
  | nil => simp [List.takeWhile, List.dropWhile]
  | cons c cs ih =>
    have hc : ¬ c = sep := fun e => h (by simp [e])
    have hb : (c != sep) = true := by simpa using hc
    have hm : sep ∉ cs := fun e => h (List.mem_cons_of_mem _ e)
    simp [List.takeWhile, List.dropWhile, hb, ih hm]

theorem isEntryFor_mk (key v : String) (h : '=' ∉ key.data) :
    isEntryFor key (key ++ "=" ++ v) = true ∧ textAfterEq (key ++ "=" ++ v) = v := by
  have hd : (key ++ "=" ++ v).data = key.data ++ '=' :: v.data := by
    simp [String.data_append]
  have ht := takeWhile_key '=' key.data v.data h
  refine ⟨?_, ?_⟩
  · simp [isEntryFor, textBeforeEq, hd, ht.1]
  · simp [textAfterEq, hd, ht.2]

theorem mem_of_getLast? {α : Type} (l : List α) (a : α) (h : l.getLast? = some a) : a ∈ l := by
  induction l using List.reverseRecOn with
  | nil => simp at h
  | append_singleton l b _ =>
    simp at h
    simp [h]

theorem specIdentity_default (key : String) (environment : List String)
    (h : ∀ v : String, v ≠ "" → key ++ "=" ++ v ∉ environment) :
    specIdentity key environment = "default" := by
  unfold specIdentity
  cases hl : (environment.filter (isEntryFor key)).getLast? with
  | none => rfl
  | some e =>
    have hm := mem_of_getLast? _ _ hl
    rw [List.mem_filter] at hm
    have he := entry_of_isEntryFor key e hm.2
    by_cases hv : textAfterEq e = ""
    · simp [hv]
    · exact absurd (he ▸ hm.1) (h _ hv)

theorem specIdentity_perm (key : String) (l₁ l₂ : List String)
    (hp : l₁.Perm l₂)
    (h : ∀ v w : String, key ++ "=" ++ v ∈ l₁ → key ++ "=" ++ w ∈ l₁ → v = w) :
    specIdentity key l₁ = specIdentity key l₂ := by
  have hf : (l₁.filter (isEntryFor key)).Perm (l₂.filter (isEntryFor key)) := hp.filter _
  unfold specIdentity
  cases h1 : (l₁.filter (isEntryFor key)).getLast? with
  | none =>
    have e1 : l₁.filter (isEntryFor key) = [] := by simpa using h1
    rw [e1] at hf
    have e2 : l₂.filter (isEntryFor key) = [] := by simpa using hf.symm
    simp [e2]
  | some a =>
    cases h2 : (l₂.filter (isEntryFor key)).getLast? with
    | none =>
      have e2 : l₂.filter (isEntryFor key) = [] := by simpa using h2
      rw [e2] at hf
      have e1 : l₁.filter (isEntryFor key) = [] := by simpa using hf
      simp [e1] at h1
    | some b =>
      have ha := mem_of_getLast? _ _ h1
      have hb := hf.symm.subset (mem_of_getLast? _ _ h2)
      rw [List.mem_filter] at ha hb
      have ea := entry_of_isEntryFor key a ha.2
      have eb := entry_of_isEntryFor key b hb.2
      have := h _ _ (ea ▸ ha.1) (eb ▸ hb.1)
      simp [this]

theorem startsWith_append (k v : List Char) : startsWith (k ++ v) k = true := by
  induction k with
  | nil => cases v <;> rfl
  | cons c cs ih => simp [startsWith, ih]

theorem startsWith_of_append_eq (k v e : String) (h : k ++ v = e) :
    startsWith e.data k.data = true := by
  rw [← h, String.data_append]
  exact startsWith_append _ _

theorem string_append_cancel (k v w : String) (h : k ++ v = k ++ w) : v = w := by
  apply String.ext
  have := congrArg String.data h
  simpa [String.data_append] using this

theorem startsWith_iff (s p : List Char) :
    startsWith s p = true ↔ ∃ rest, s = p ++ rest := by
  induction p generalizing s with
  | nil => cases s <;> simp [startsWith]
  | cons c cs ih =>
    cases s with
    | nil => simp [startsWith]
    | cons d ds =>
      simp only [startsWith, Bool.and_eq_true, decide_eq_true_eq, ih, List.cons_append,
        List.cons.injEq]
      constructor
      · rintro ⟨h, r, hr⟩
        exact ⟨r, h, hr⟩
      · rintro ⟨r, h, hr⟩
        exact ⟨h, r, hr⟩

theorem containsChars_iff (s sub : List Char) :
    containsChars s sub = true ↔ ∃ before rest, s = before ++ (sub ++ rest) := by
  induction s with
  | nil =>
    simp only [containsChars, startsWith_iff]
    constructor
    · rintro ⟨r, hr⟩
      exact ⟨[], r, hr⟩
    · rintro ⟨b, r, hr⟩
      have hb : b = [] := by
        cases b with
        | nil => rfl
        | cons x xs => simp at hr
      subst hb
      exact ⟨r, hr⟩
  | cons c cs ih =>
    simp only [containsChars, Bool.or_eq_true, startsWith_iff, ih]
    constructor
    · rintro (⟨r, hr⟩ | ⟨b, r, hr⟩)
      · exact ⟨[], r, hr⟩
      · exact ⟨c :: b, r, by simp [hr]⟩
    · rintro ⟨b, r, hr⟩
      cases b with
      | nil => exact Or.inl ⟨r, hr⟩
      | cons x xs =>
        simp only [List.cons_append, List.cons.injEq] at hr
        exact Or.inr ⟨xs, r, hr.2⟩

theorem validateKeys_eq_none (keys : List String) :
    validateKeys keys = none ↔ ∀ k ∈ keys, k = zmqAddress := by
  induction keys with
  | nil => simp [validateKeys]
  | cons k rest ih =>
    by_cases hk : k = zmqAddress
    · simp [validateKeys, hk, ih]
    · simp [validateKeys, hk]

theorem ValidateLogOpt_eq_none (cfg : GoMap) :
    ValidateLogOpt cfg = none ↔
      (∀ k ∈ cfg.keys, k = zmqAddress) ∧ cfg.get zmqAddress ≠ "" := by
  unfold ValidateLogOpt
  cases hv : validateKeys cfg.keys with
  | some err =>
    have : ¬ ∀ k ∈ cfg.keys, k = zmqAddress := by
      rw [← validateKeys_eq_none, hv]
      simp
    simp [this]
  | none =>
    have : ∀ k ∈ cfg.keys, k = zmqAddress := (validateKeys_eq_none _).mp hv
    by_cases he : cfg.get zmqAddress = ""
    · simp [he]
    · rw [if_neg he]
      exact ⟨fun _ => ⟨this, he⟩, fun _ => rfl⟩

theorem envLoop_insert (env : GoMap) (l₁ l₂ : List String) (s : String)
    (h : '=' ∉ s.data) :
    envLoop env (l₁ ++ s :: l₂) = envLoop env (l₁ ++ l₂) := by
  simp [envLoop, List.foldl_append, envStep_eq, h]

theorem Reachable.writer_ne_nil (s : ZmqLogger) (h : Reachable s) : ∃ w, s.writer = some w := by
  induction h with
  | new newSocket info lg h =>
    cases newSocket with
    | error e => simp [New] at h
    | ok puber =>
      rw [New_ok] at h
      cases h
      exact ⟨_, rfl⟩
  | log s s₁ msg err _ h ih =>
    obtain ⟨w, hw⟩ := ih
    simp only [Log, hw, Option.some.injEq, Prod.mk.injEq] at h
    rw [← h.1]
    exact ⟨_, rfl⟩
  | close s _ ih =>
    obtain ⟨w, hw⟩ := ih
    simp only [Close, hw]
    exact ⟨_, rfl⟩

/-! ## The claims -/

/-- Claim C1. For a logger whose `writer` is a socket `w` (every logger built by
`New` and used through `Log` and `Close` is such), one call of `Log` makes
exactly three calls on the socket, in this order: `Send(tenantId, SNDMORE)`,
`Send(serviceId, SNDMORE)` and `Send(containerId + ": " + line, DONTWAIT)`;
and the outcome of `Log` does not depend on `msg.Source`: two messages with
the same line give the same calls. -/
theorem Log_sends_three_frames (s : ZmqLogger) (w : Socket) (msg : Message)
    (hw : s.writer = some w) :
    Log s msg =
        some
          ({ s with
              writer := some
                { calls := w.calls ++
                    [SockCall.send s.tenantId Flag.SNDMORE,
                     SockCall.send s.serviceId Flag.SNDMORE,
                     SockCall.send (s.containerId ++ ": " ++ msg.Line) Flag.DONTWAIT]
                  reply := w.reply } },
            none)
      ∧ ∀ other : Message, other.Line = msg.Line → Log s other = Log s msg := by
  have key : ∀ m : Message, Log s m =
      some
        ({ s with
            writer := some
              { calls := w.calls ++
                  [SockCall.send s.tenantId Flag.SNDMORE,
                   SockCall.send s.serviceId Flag.SNDMORE,
                   SockCall.send (s.containerId ++ ": " ++ m.Line) Flag.DONTWAIT]
                reply := w.reply } },
          none) := by
    intro m
    simp [Log, hw, Socket.Send, Socket.call]
  refine ⟨key msg, ?_⟩
  intro other ho
  rw [key other, key msg, ho]

/-- Witness of claim C1: a stderr line logged on a fresh socket. -/
theorem Log_sends_three_frames_witness :
    (Log { writer := some { calls := [], reply := fun _ _ => none }
           containerId := "c0ffee", tenantId := "acme", serviceId := "web" }
        { Line := "boom", Source := "stderr" }).map
        (fun r => r.1.writer.map Socket.calls) =
      some (some
        [SockCall.send "acme" Flag.SNDMORE,
         SockCall.send "web" Flag.SNDMORE,
         SockCall.send "c0ffee: boom" Flag.DONTWAIT]) := by
  rw [(Log_sends_three_frames
    { writer := some { calls := [], reply := fun _ _ => none }
      containerId := "c0ffee", tenantId := "acme", serviceId := "web" }
    { calls := [], reply := fun _ _ => none }
    { Line := "boom", Source := "stderr" } rfl).1]
  decide

/-- Counterexample of claim C2: on a logger built by `New` over a transport that
always succeeds, two calls of `Close` both return nil, and the socket's
`Close` has been called twice, not once. -/
theorem Close_twice_closes_socket_twice :
    ∃ lg : ZmqLogger,
      New (Except.ok { calls := [], reply := fun _ _ => none })
          { Config := [("zmqAddress", "tcp://host:1234")], ContainerEnv := [], ID := "c0ffee" }
        = Except.ok lg ∧
      (Close lg).2 = none ∧
      (Close (Close lg).1).2 = none ∧
      (Close (Close lg).1).1.writer.map Socket.calls =
        some [SockCall.connect "tcp://host:1234", SockCall.close, SockCall.close] ∧
      (Close (Close lg).1).1.writer.map (fun w => w.calls.count SockCall.close) = some 2 :=
  ⟨_, rfl, rfl, rfl, by decide, by decide⟩

/-- Claim C2, amended. `Close` tests `writer` against nil only, and `writer` is
never reset: on a logger whose `writer` is a socket `w`, each call of `Close`
calls the socket's `Close` once and returns what that call returns, so two
calls in a row call the socket's `Close` twice, and both return nil exactly
when the transport answers nil to both.  `Close` is a no-op returning nil
only for a nil `writer`. -/
theorem Close_calls_socket_Close (s : ZmqLogger) (w : Socket) (hw : s.writer = some w) :
    Close s =
        ({ s with writer := some { calls := w.calls ++ [SockCall.close], reply := w.reply } },
          w.reply w.calls SockCall.close)
      ∧ Close (Close s).1 =
        ({ s with
            writer := some
              { calls := w.calls ++ [SockCall.close, SockCall.close], reply := w.reply } },
          w.reply (w.calls ++ [SockCall.close]) SockCall.close)
      ∧ Close { s with writer := none } = ({ s with writer := none }, none) := by
  refine ⟨?_, ?_, ?_⟩
  · simp [Close, hw, Socket.Close, Socket.call]
  · simp [Close, hw, Socket.Close, Socket.call]
  · simp [Close]

/-- Witness of claim C2, amended: a transport that refuses the second `Close`. -/
theorem Close_calls_socket_Close_witness :
    (Close
        { writer := some
            { calls := [],
              reply := fun earlier _ => if earlier = [] then none else some "closed" }
          containerId := "c0ffee", tenantId := "acme", serviceId := "web" }).2 = none ∧
      (Close (Close
        { writer := some
            { calls := [],
              reply := fun earlier _ => if earlier = [] then none else some "closed" }
          containerId := "c0ffee", tenantId := "acme", serviceId := "web" }).1).2
        = some "closed" := by
  have h := Close_calls_socket_Close
    { writer := some
        { calls := [],
          reply := fun earlier _ => if earlier = [] then none else some "closed" }
      containerId := "c0ffee", tenantId := "acme", serviceId := "web" }
    { calls := [],
      reply := fun earlier _ => if earlier = [] then none else some "closed" } rfl
  exact ⟨by rw [h.1]; rfl, by rw [h.2.1]; rfl⟩

/-- Counterexample of claim C3: on a transport that fails every send, each of
the three sends of `Log` fails and `Log` still returns nil. -/
theorem Log_swallows_send_failure :
    (Socket.Send { calls := [], reply := fun _ _ => some "EAGAIN" } "acme" Flag.SNDMORE).2
        = some "EAGAIN" ∧
      (Log { writer := some { calls := [], reply := fun _ _ => some "EAGAIN" }
             containerId := "c0ffee", tenantId := "acme", serviceId := "web" }
          { Line := "boom", Source := "stdout" }).map Prod.snd = some none :=
  ⟨rfl, rfl⟩

/-- Claim C3, amended. `Log` discards the result of each of its three sends:
on a logger whose `writer` is a socket, `Log` returns nil whatever the
transport answers to the sends, a failure included. -/
theorem Log_returns_nil (s : ZmqLogger) (w : Socket) (msg : Message)
    (hw : s.writer = some w) :
    (Log s msg).map Prod.snd = some none := by
  simp [Log, hw]

/-- Witness of claim C3, amended: a transport that fails every call. -/
theorem Log_returns_nil_witness :
    (Log { writer := some { calls := [], reply := fun _ _ => some "EAGAIN" }
           containerId := "c0ffee", tenantId := "acme", serviceId := "web" }
        { Line := "boom", Source := "stderr" }).map Prod.snd = some none :=
  Log_returns_nil _ { calls := [], reply := fun _ _ => some "EAGAIN" } _ rfl

/-- Claim C4. `ValidateLogOpt cfg` returns nil if and only if `cfg` has no key
other than `zmqAddress` and `cfg[zmqAddress]` is not empty; the empty map, the
map with an empty `zmqAddress` and every map with an unknown key are rejected,
and the map with `zmqAddress` set to `tcp://host:1234` is accepted. -/
theorem ValidateLogOpt_nil_iff (cfg : GoMap) :
    (ValidateLogOpt cfg = none ↔
        (∀ k ∈ cfg.keys, k = "zmqAddress") ∧ cfg.get "zmqAddress" ≠ "")
      ∧ (ValidateLogOpt [] ≠ none)
      ∧ (ValidateLogOpt [("zmqAddress", "")] ≠ none)
      ∧ (∀ (k v : String) (before after : GoMap), k ≠ "zmqAddress" →
          ValidateLogOpt (before ++ (k, v) :: after) ≠ none)
      ∧ ValidateLogOpt [("zmqAddress", "tcp://host:1234")] = none := by
  refine ⟨ValidateLogOpt_eq_none cfg, by decide, by decide, ?_, by decide⟩
  intro k v before after hk h
  rw [ValidateLogOpt_eq_none] at h
  exact hk (h.1 k (by simp [GoMap.keys]))

/-- Witness of claim C4: an unknown key next to a valid address. -/
theorem ValidateLogOpt_nil_iff_witness :
    ValidateLogOpt [("zmqAddress", "tcp://host:1234"), ("tag", "x")] ≠ none :=
  (ValidateLogOpt_nil_iff []).2.2.2.1 "tag" "x" [("zmqAddress", "tcp://host:1234")] []
    (by decide)

/-- Claim C5. If the environment has no entry `TENANT_ID=v` with `v` not empty,
the logger built by `New` has tenantId `"default"`; likewise for `SERVICE_ID`
and serviceId; and the environment `["TENANT_ID=acme", "SERVICE_ID=web"]`
gives tenantId `"acme"` and serviceId `"web"`. -/
theorem New_identity_default (puber : Socket) (info : Info) :
    ((∀ v : String, v ≠ "" → "TENANT_ID=" ++ v ∉ info.ContainerEnv) →
        ∃ lg, New (Except.ok puber) info = Except.ok lg ∧ lg.tenantId = "default")
      ∧ ((∀ v : String, v ≠ "" → "SERVICE_ID=" ++ v ∉ info.ContainerEnv) →
        ∃ lg, New (Except.ok puber) info = Except.ok lg ∧ lg.serviceId = "default")
      ∧ ∃ lg,
          New (Except.ok puber)
              { info with ContainerEnv := ["TENANT_ID=acme", "SERVICE_ID=web"] }
            = Except.ok lg ∧
          lg.tenantId = "acme" ∧ lg.serviceId = "web" := by
  refine ⟨?_, ?_, ?_⟩
  · intro h
    exact ⟨_, New_ok puber info, specIdentity_default "TENANT_ID" _ h⟩
  · intro h
    exact ⟨_, New_ok puber info, specIdentity_default "SERVICE_ID" _ h⟩
  · refine ⟨_, New_ok puber _, ?_, ?_⟩
    · show specIdentity "TENANT_ID" ["TENANT_ID=acme", "SERVICE_ID=web"] = "acme"
      decide
    · show specIdentity "SERVICE_ID" ["TENANT_ID=acme", "SERVICE_ID=web"] = "web"
      decide

/-- Witness of claim C5: an environment with a malformed entry, an empty
`TENANT_ID` and no `SERVICE_ID`. -/
theorem New_identity_default_witness :
    (∃ lg,
        New (Except.ok { calls := [], reply := fun _ _ => none })
            { Config := [], ContainerEnv := ["FOO", "TENANT_ID="], ID := "c0ffee" }
          = Except.ok lg ∧ lg.tenantId = "default") ∧
      (∃ lg,
        New (Except.ok { calls := [], reply := fun _ _ => none })
            { Config := [], ContainerEnv := ["FOO", "TENANT_ID="], ID := "c0ffee" }
          = Except.ok lg ∧ lg.serviceId = "default") := by
  have h := New_identity_default { calls := [], reply := fun _ _ => none }
    { Config := [], ContainerEnv := ["FOO", "TENANT_ID="], ID := "c0ffee" }
  refine ⟨h.1 ?_, h.2.1 ?_⟩
  · intro v hv hm
    simp only [List.mem_cons, List.mem_singleton, List.not_mem_nil, or_false] at hm
    rcases hm with hm | hm
    · exact absurd (startsWith_of_append_eq _ _ _ hm) (by decide)
    · exact hv (string_append_cancel "TENANT_ID=" v "" hm)
  · intro v _ hm
    simp only [List.mem_cons, List.mem_singleton, List.not_mem_nil, or_false] at hm
    rcases hm with hm | hm
    · exact absurd (startsWith_of_append_eq _ _ _ hm) (by decide)
    · exact absurd (startsWith_of_append_eq _ _ _ hm) (by decide)

/-- Claim C6. Inserting, at any position of the environment, a string without
`=` changes nothing in the result of `New`: the same tenantId and serviceId
are derived, and `New` returns a logger whenever the socket was created. -/
theorem New_ignores_malformed (newSocket : Except Error Socket) (cfg : GoMap) (id : String)
    (l₁ l₂ : List String) (s : String) (h : '=' ∉ s.data) :
    New newSocket { Config := cfg, ContainerEnv := l₁ ++ s :: l₂, ID := id } =
        New newSocket { Config := cfg, ContainerEnv := l₁ ++ l₂, ID := id }
      ∧ ∀ puber : Socket, ∃ lg₁ lg₂,
          New (Except.ok puber) { Config := cfg, ContainerEnv := l₁ ++ s :: l₂, ID := id }
            = Except.ok lg₁ ∧
          New (Except.ok puber) { Config := cfg, ContainerEnv := l₁ ++ l₂, ID := id }
            = Except.ok lg₂ ∧
          lg₁.tenantId = lg₂.tenantId ∧ lg₁.serviceId = lg₂.serviceId := by
  have hl := envLoop_insert [] l₁ l₂ s h
  have he : ∀ ns : Except Error Socket,
      New ns { Config := cfg, ContainerEnv := l₁ ++ s :: l₂, ID := id } =
        New ns { Config := cfg, ContainerEnv := l₁ ++ l₂, ID := id } := by
    intro ns
    simp only [New, hl]
  refine ⟨he newSocket, ?_⟩
  intro puber
  refine ⟨_, _, New_ok puber _, ?_, rfl, rfl⟩
  rw [← he]
  exact New_ok puber _

/-- Witness of claim C6: the malformed entry `FOO` between two well-formed ones. -/
theorem New_ignores_malformed_witness :
    New (Except.ok { calls := [], reply := fun _ _ => none })
        { Config := [], ContainerEnv := ["TENANT_ID=acme"] ++ "FOO" :: ["SERVICE_ID=web"],
          ID := "c0ffee" } =
      New (Except.ok { calls := [], reply := fun _ _ => none })
        { Config := [], ContainerEnv := ["TENANT_ID=acme"] ++ ["SERVICE_ID=web"],
          ID := "c0ffee" } :=
  (New_ignores_malformed _ [] "c0ffee" ["TENANT_ID=acme"] ["SERVICE_ID=web"] "FOO"
    (by decide)).1

/-- Counterexample of claim C7: for the map with an empty `zmqAddress` the error
message names the option but does not contain the driver name `zmq_logger`. -/
theorem ValidateLogOpt_empty_omits_driver_name :
    ValidateLogOpt [("zmqAddress", "")]
        = some "must specify a value for log opt \x27zmqAddress\x27" ∧
      Contains "must specify a value for log opt \x27zmqAddress\x27" "zmq_logger" = false ∧
      name = "zmq_logger" := by
  decide

/-- Claim C7, amended. For every option map in which `zmqAddress` is present,
mapped to the empty string, and no unknown key is present, `ValidateLogOpt`
returns the error `must specify a value for log opt 'zmqAddress'`: the message
contains the name of the missing option, `zmqAddress`, and does not contain
the driver name. -/
theorem ValidateLogOpt_empty_value (cfg : GoMap)
    (hk : ∀ k ∈ cfg.keys, k = "zmqAddress") (_hp : "zmqAddress" ∈ cfg.keys)
    (he : cfg.get "zmqAddress" = "") :
    ∃ err, ValidateLogOpt cfg = some err ∧
      err = "must specify a value for log opt \x27zmqAddress\x27" ∧
      Contains err "zmqAddress" = true ∧ Contains err name = false := by
  have hv : validateKeys cfg.keys = none := (validateKeys_eq_none _).mpr hk
  have he2 : cfg.get zmqAddress = "" := he
  refine ⟨_, ?_, rfl, by decide, by decide⟩
  simp only [ValidateLogOpt, hv, he2, if_true]
  decide

/-- Witness of claim C7, amended: the map with an empty `zmqAddress`. -/
theorem ValidateLogOpt_empty_value_witness :
    ∃ err, ValidateLogOpt [("zmqAddress", "")] = some err ∧
      err = "must specify a value for log opt \x27zmqAddress\x27" ∧
      Contains err "zmqAddress" = true ∧ Contains err name = false :=
  ValidateLogOpt_empty_value [("zmqAddress", "")] (by decide) (by decide) (by decide)

/-- Counterexample of claim C8: two environments that are permutations of each
other, with two entries for `TENANT_ID`, give different tenantIds. -/
theorem New_identity_depends_on_order :
    List.Perm ["TENANT_ID=a", "TENANT_ID=b"] ["TENANT_ID=b", "TENANT_ID=a"] ∧
      (∃ lg,
        New (Except.ok { calls := [], reply := fun _ _ => none })
            { Config := [], ContainerEnv := ["TENANT_ID=a", "TENANT_ID=b"], ID := "c0ffee" }
          = Except.ok lg ∧ lg.tenantId = "b") ∧
      (∃ lg,
        New (Except.ok { calls := [], reply := fun _ _ => none })
            { Config := [], ContainerEnv := ["TENANT_ID=b", "TENANT_ID=a"], ID := "c0ffee" }
          = Except.ok lg ∧ lg.tenantId = "a") :=
  ⟨List.Perm.swap _ _ _, ⟨_, rfl, by decide⟩, ⟨_, rfl, by decide⟩⟩

/-- Claim C8, amended. For any two environments that are permutations of each
other and in which all entries `TENANT_ID=v` carry the same value and all
entries `SERVICE_ID=v` carry the same value, `New` derives the same tenantId
and the same serviceId. -/
theorem New_identity_perm (puber : Socket) (cfg : GoMap) (id : String)
    (l₁ l₂ : List String) (hp : l₁.Perm l₂)
    (ht : ∀ v w : String, "TENANT_ID=" ++ v ∈ l₁ → "TENANT_ID=" ++ w ∈ l₁ → v = w)
    (hs : ∀ v w : String, "SERVICE_ID=" ++ v ∈ l₁ → "SERVICE_ID=" ++ w ∈ l₁ → v = w) :
    ∃ lg₁ lg₂,
      New (Except.ok puber) { Config := cfg, ContainerEnv := l₁, ID := id } = Except.ok lg₁ ∧
      New (Except.ok puber) { Config := cfg, ContainerEnv := l₂, ID := id } = Except.ok lg₂ ∧
      lg₁.tenantId = lg₂.tenantId ∧ lg₁.serviceId = lg₂.serviceId :=
  ⟨_, _, New_ok puber _, New_ok puber _,
    specIdentity_perm "TENANT_ID" l₁ l₂ hp ht, specIdentity_perm "SERVICE_ID" l₁ l₂ hp hs⟩

/-- Witness of claim C8, amended: an environment and its reversal. -/
theorem New_identity_perm_witness :
    ∃ lg₁ lg₂,
      New (Except.ok { calls := [], reply := fun _ _ => none })
          { Config := [], ContainerEnv := ["TENANT_ID=acme", "FOO"], ID := "c0ffee" }
        = Except.ok lg₁ ∧
      New (Except.ok { calls := [], reply := fun _ _ => none })
          { Config := [], ContainerEnv := ["FOO", "TENANT_ID=acme"], ID := "c0ffee" }
        = Except.ok lg₂ ∧
      lg₁.tenantId = lg₂.tenantId ∧ lg₁.serviceId = lg₂.serviceId := by
  refine New_identity_perm { calls := [], reply := fun _ _ => none } [] "c0ffee"
    ["TENANT_ID=acme", "FOO"] ["FOO", "TENANT_ID=acme"] (List.Perm.swap _ _ _) ?_ ?_
  · intro v w hv hw
    simp only [List.mem_cons, List.mem_singleton, List.not_mem_nil, or_false] at hv hw
    rcases hv with hv | hv
    · rcases hw with hw | hw
      · exact string_append_cancel "TENANT_ID=" v w (hv.trans hw.symm)
      · exact absurd (startsWith_of_append_eq _ _ _ hw) (by decide)
    · exact absurd (startsWith_of_append_eq _ _ _ hv) (by decide)
  · intro v w hv _
    simp only [List.mem_cons, List.mem_singleton, List.not_mem_nil, or_false] at hv
    rcases hv with hv | hv
    · exact absurd (startsWith_of_append_eq _ _ _ hv) (by decide)
    · exact absurd (startsWith_of_append_eq _ _ _ hv) (by decide)

/-- Claim C10. The tenantId derived by `New` is the text after the first `=` of
the last entry of the environment whose text before its first `=` is exactly
`TENANT_ID`, replaced by `"default"` when there is no such entry or that text
is empty, and serviceId is derived in the same way from `SERVICE_ID`; a later
duplicate overrides an earlier one, and `TENANT_ID=a=b` gives `a=b`. -/
theorem New_identity_last_entry (puber : Socket) (info : Info) :
    (∃ lg, New (Except.ok puber) info = Except.ok lg ∧
        lg.tenantId = specIdentity "TENANT_ID" info.ContainerEnv ∧
        lg.serviceId = specIdentity "SERVICE_ID" info.ContainerEnv)
      ∧ (∃ lg,
          New (Except.ok puber)
              { info with ContainerEnv := ["TENANT_ID=old", "SERVICE_ID=web", "TENANT_ID=new"] }
            = Except.ok lg ∧ lg.tenantId = "new" ∧ lg.serviceId = "web")
      ∧ ∃ lg,
          New (Except.ok puber) { info with ContainerEnv := ["TENANT_ID=a=b"] }
            = Except.ok lg ∧ lg.tenantId = "a=b" ∧ lg.serviceId = "default" := by
  refine ⟨⟨_, New_ok puber info, rfl, rfl⟩, ⟨_, New_ok puber _, ?_, ?_⟩,
    ⟨_, New_ok puber _, ?_, ?_⟩⟩
  · show specIdentity "TENANT_ID" ["TENANT_ID=old", "SERVICE_ID=web", "TENANT_ID=new"] = "new"
    decide
  · show specIdentity "SERVICE_ID" ["TENANT_ID=old", "SERVICE_ID=web", "TENANT_ID=new"] = "web"
    decide
  · show specIdentity "TENANT_ID" ["TENANT_ID=a=b"] = "a=b"
    decide
  · show specIdentity "SERVICE_ID" ["TENANT_ID=a=b"] = "default"
    decide

end ZmqDriver
